import Mathlib

/-!
Shallow embedding of the fitness-club management program
(`app/main.py` and `models/models.py`) and proofs about its
data-access operations and schema invariants.

Modelling conventions:
* The relational store is a `DBState`: one Lean list per table, rows as
  structures mirroring the ORM models in `models/models.py`.
* Auto-increment identifiers are assigned as `table.length + 1`; no
  operation in scope deletes rows, so this matches the behaviour of a
  per-table sequence.
* Timestamps produced by `datetime.now()` (health metrics, enrollment
  dates) are abstract instants modelled as `Nat`; times parsed from user
  input (class times, PT-session times) are `DateTime` records, since the
  program compares them only for equality (uniqueness constraints).
* Python `int(...)` / `float(...)` / `datetime.strptime` are modelled by
  `pyInt` / `pyFloat` / `parseDate` / `parseDateTime`, restricted to the
  zero-padded canonical forms of the fixed patterns used by the program.
* Each business operation returns `DBState × Outcome α`: `ok` is a
  committed transaction, `handled` a failure the operation caught
  (printed and rolled back, control returns to the menu), `crash` an
  uncaught Python exception (the process terminates; nothing was
  committed, so the returned state is the prior state).
* Database errors raised at commit: unique / foreign-key / check
  violations are `IntegrityError`s in SQLAlchemy; the `RAISE EXCEPTION`
  of the `check_class_capacity` trigger is a PL/pgSQL error
  (`InternalError`), not an `IntegrityError`, so it is caught only by
  the generic `except Exception` branches.
* `String.trim` models Python `str.strip` (whitespace stripping); varchar
  length limits are not modelled (no claim depends on them).
-/

namespace Fitness

/-- Calendar date, as produced by parsing with pattern `%Y-%m-%d`. -/
structure Date where
  year : Nat
  month : Nat
  day : Nat
deriving DecidableEq

/-- Date-time to the minute, as produced by parsing with pattern
`%Y-%m-%d %H:%M`. -/
structure DateTime where
  year : Nat
  month : Nat
  day : Nat
  hour : Nat
  minute : Nat
deriving DecidableEq

/-- Value of a list of decimal digit characters. -/
def digitsToNat (cs : List Char) : Nat :=
  cs.foldl (fun n c => n * 10 + (c.toNat - 48)) 0

/-- Nonempty and all decimal digits. -/
def allDigits (cs : List Char) : Bool :=
  !cs.isEmpty && cs.all Char.isDigit

/-- Leading and trailing whitespace removed, as Python `str.strip`. -/
def stripChars (cs : List Char) : List Char :=
  ((cs.dropWhile Char.isWhitespace).reverse.dropWhile Char.isWhitespace).reverse

/-- Models Python `str.strip()` on a string. -/
def pyStrip (s : String) : String :=
  String.mk (stripChars s.toList)

/-- Models Python `int(s)`: surrounding whitespace stripped, optional
sign, then a nonempty run of decimal digits; anything else raises
`ValueError` (modelled as `none`). -/
def pyInt (s : String) : Option Int :=
  match stripChars s.toList with
  | '-' :: rest => if allDigits rest then some (-(digitsToNat rest : Int)) else none
  | '+' :: rest => if allDigits rest then some (digitsToNat rest : Int) else none
  | t => if allDigits t then some (digitsToNat t : Int) else none

/-- Value in hundredths of an unsigned decimal literal (digits with an
optional single point), matching storage in a `Numeric(6,2)` column;
digits beyond the second decimal place are dropped. -/
def parseDecimalHundredths (cs : List Char) : Option Nat :=
  let intPart := cs.takeWhile (fun c => c != '.')
  match cs.dropWhile (fun c => c != '.') with
  | [] => if allDigits cs then some (digitsToNat cs * 100) else none
  | _ :: frac =>
    if (intPart.all Char.isDigit && frac.all Char.isDigit
        && (!intPart.isEmpty || !frac.isEmpty)) then
      some (digitsToNat intPart * 100 +
        (match frac with
         | [] => 0
         | [c] => (c.toNat - 48) * 10
         | c1 :: c2 :: _ => (c1.toNat - 48) * 10 + (c2.toNat - 48)))
    else none

/-- Models Python `float(s)` followed by storage in a `Numeric(6,2)`
column, restricted to plain decimal literals with an optional sign; the
claims depend only on parse success or failure. -/
def pyFloat (s : String) : Option Int :=
  match stripChars s.toList with
  | '-' :: rest => (parseDecimalHundredths rest).map (fun n => -(n : Int))
  | '+' :: rest => (parseDecimalHundredths rest).map (fun n => (n : Int))
  | t => (parseDecimalHundredths t).map (fun n => (n : Int))

/-- Gregorian leap-year rule, as validated by `datetime.strptime`. -/
def isLeap (y : Nat) : Bool :=
  (y % 4 == 0 && y % 100 != 0) || y % 400 == 0

/-- Number of days in a month, as validated by `datetime.strptime`. -/
def daysInMonth (y m : Nat) : Nat :=
  if m == 2 then (if isLeap y then 29 else 28)
  else if m == 4 || m == 6 || m == 9 || m == 11 then 30
  else 31

/-- Value of two digit characters. -/
def d2 (a b : Char) : Nat := (a.toNat - 48) * 10 + (b.toNat - 48)

/-- Value of four digit characters. -/
def d4 (a b c d : Char) : Nat :=
  ((a.toNat - 48) * 10 + (b.toNat - 48)) * 100 + (c.toNat - 48) * 10 + (d.toNat - 48)

/-- Models `datetime.strptime(s, "%Y-%m-%d").date()` on the zero-padded
canonical form `YYYY-MM-DD`, with the range checks strptime performs. -/
def parseDate (s : String) : Option Date :=
  match s.toList with
  | [a, b, c, d, s1, e, f, s2, g, i] =>
    if (s1 = '-' ∧ s2 = '-' ∧ ([a, b, c, d, e, f, g, i].all Char.isDigit) = true) then
      let y := d4 a b c d
      let mo := d2 e f
      let da := d2 g i
      if (1 ≤ mo ∧ mo ≤ 12 ∧ 1 ≤ da ∧ da ≤ daysInMonth y mo) then
        some ⟨y, mo, da⟩
      else none
    else none
  | _ => none

/-- Models `datetime.strptime(s, "%Y-%m-%d %H:%M")` on the zero-padded
canonical form `YYYY-MM-DD HH:MM`, with the range checks strptime
performs. -/
def parseDateTime (s : String) : Option DateTime :=
  match s.toList with
  | [a, b, c, d, s1, e, f, s2, g, i, sp, p, q, s3, r, u] =>
    if (s1 = '-' ∧ s2 = '-' ∧ sp = ' ' ∧ s3 = ':' ∧
        ([a, b, c, d, e, f, g, i, p, q, r, u].all Char.isDigit) = true) then
      let y := d4 a b c d
      let mo := d2 e f
      let da := d2 g i
      let hh := d2 p q
      let mi := d2 r u
      if (1 ≤ mo ∧ mo ≤ 12 ∧ 1 ≤ da ∧ da ≤ daysInMonth y mo ∧ hh ≤ 23 ∧ mi ≤ 59) then
        some ⟨y, mo, da, hh, mi⟩
      else none
    else none
  | _ => none

/-- Row of table `Member` (`models/models.py`, class `Member`). -/
structure MemberRow where
  member_id : Int
  name : String
  email : String
  date_of_birth : Option Date
  gender : Option String
  phone : Option String
deriving DecidableEq

/-- Row of table `Trainer` (`models/models.py`, class `Trainer`). -/
structure TrainerRow where
  trainer_id : Int
  name : String
  email : String
  specialization : Option String
deriving DecidableEq

/-- Row of table `Admin` (`models/models.py`, class `Admin`). -/
structure AdminRow where
  admin_id : Int
  username : String
  password_hash : String
  name : String
  email : String
deriving DecidableEq

/-- Row of table `Room` (`models/models.py`, class `Room`). -/
structure RoomRow where
  room_id : Int
  name : String
  capacity : Int
deriving DecidableEq

/-- Row of table `Class` (`models/models.py`, class `Class`). -/
structure ClassRow where
  class_id : Int
  trainer_id : Int
  room_id : Int
  class_name : String
  class_time : DateTime
  capacity : Int
deriving DecidableEq

/-- Row of table `HealthMetric` (`models/models.py`, class
`HealthMetric`); `timestamp` is an abstract instant. -/
structure HealthMetricRow where
  metric_id : Int
  member_id : Int
  metric_type : String
  metric_value : Int
  timestamp : Nat
deriving DecidableEq

/-- Row of table `PTSession` (`models/models.py`, class `PTSession`). -/
structure PTSessionRow where
  session_id : Int
  member_id : Int
  trainer_id : Int
  session_time : DateTime
  status : String
deriving DecidableEq

/-- Row of table `ClassEnrollment` (`models/models.py`, class
`ClassEnrollment`); `enrollment_date` is an abstract instant. -/
structure EnrollmentRow where
  enrollment_id : Int
  member_id : Int
  class_id : Int
  enrollment_date : Nat
deriving DecidableEq

/-- The relational store: one list per table of the schema. `FitnessGoal`
is omitted: no in-scope operation writes it and no claim depends on it. -/
structure DBState where
  members : List MemberRow
  trainers : List TrainerRow
  admins : List AdminRow
  rooms : List RoomRow
  classes : List ClassRow
  metrics : List HealthMetricRow
  ptsessions : List PTSessionRow
  enrollments : List EnrollmentRow
deriving DecidableEq

/-- The empty store, as after `create_tables` on a fresh database. -/
def initState : DBState := ⟨[], [], [], [], [], [], [], []⟩

/-- Database-level errors surfaced at commit. The first three are
`IntegrityError`s in SQLAlchemy; `triggerCapacity` is the PL/pgSQL
`RAISE EXCEPTION` of `check_class_capacity` (an `InternalError`, not an
`IntegrityError`). -/
inductive DBError where
  | unique (constraint : String)
  | fk (constraint : String)
  | check (constraint : String)
  | triggerCapacity
deriving DecidableEq

/-- An uncaught Python exception. -/
inductive PyError where
  | valueError
deriving DecidableEq

/-- How a business operation concludes, following the spec's error
taxonomy. `invalidInput` is a caught `ValueError` on a numeric prompt;
`unexpected` is the generic `except Exception` branch;
`capacityExceedsRoom` names the spec's application-layer pre-check error
category for `create_class` (§7), examined in the claims below. -/
inductive AppError where
  | invalidInput
  | validationError
  | notFound
  | integrityViolation (e : DBError)
  | unexpected
  | alreadyEnrolled
  | classFull
  | capacityExceedsRoom
deriving DecidableEq

/-- Result of one business operation: committed, caught-and-rolled-back,
or an uncaught exception terminating the process. -/
inductive Outcome (α : Type) where
  | ok (a : α)
  | handled (e : AppError)
  | crash (e : PyError)
deriving DecidableEq

/-- Insert into `Member`: unique email (`Member.email` unique). -/
def dbInsertMember (st : DBState) (r : MemberRow) : Except DBError DBState :=
  if st.members.any (fun m => m.email == r.email) then
    .error (.unique "Member_email_key")
  else .ok { st with members := st.members ++ [r] }

/-- Insert into `Trainer`: unique email (`Trainer.email` unique). -/
def dbInsertTrainer (st : DBState) (r : TrainerRow) : Except DBError DBState :=
  if st.trainers.any (fun t => t.email == r.email) then
    .error (.unique "Trainer_email_key")
  else .ok { st with trainers := st.trainers ++ [r] }

/-- Insert into `Admin`: unique username, unique email. -/
def dbInsertAdmin (st : DBState) (r : AdminRow) : Except DBError DBState :=
  if st.admins.any (fun a => a.username == r.username) then
    .error (.unique "Admin_username_key")
  else if st.admins.any (fun a => a.email == r.email) then
    .error (.unique "Admin_email_key")
  else .ok { st with admins := st.admins ++ [r] }

/-- Insert into `Room`: check constraint `capacity > 0`
(`check_capacity_positive`), then unique name. -/
def dbInsertRoom (st : DBState) (r : RoomRow) : Except DBError DBState :=
  if r.capacity ≤ 0 then
    .error (.check "check_capacity_positive")
  else if st.rooms.any (fun x => x.name == r.name) then
    .error (.unique "Room_name_key")
  else .ok { st with rooms := st.rooms ++ [r] }

/-- First room with the given id, as the trigger's
`SELECT capacity FROM Room WHERE room_id = NEW.room_id`. -/
def findRoom (st : DBState) (rid : Int) : Option RoomRow :=
  st.rooms.find? (fun r => r.room_id == rid)

/-- Insert into `Class`. In firing order: the `BEFORE INSERT` trigger
`check_class_capacity` (raises when the referenced room exists and
`NEW.capacity > room.capacity`; a missing room yields a NULL comparison
and no raise), the check constraint `check_class_capacity_positive`,
the unique constraint `uq_room_time`, then the foreign keys on
`trainer_id` and `room_id`. -/
def dbInsertClass (st : DBState) (r : ClassRow) : Except DBError DBState :=
  match findRoom st r.room_id with
  | some room =>
    if room.capacity < r.capacity then
      .error .triggerCapacity
    else if r.capacity ≤ 0 then
      .error (.check "check_class_capacity_positive")
    else if st.classes.any (fun c => c.room_id == r.room_id && c.class_time == r.class_time) then
      .error (.unique "uq_room_time")
    else if !st.trainers.any (fun t => t.trainer_id == r.trainer_id) then
      .error (.fk "Class_trainer_id_fkey")
    else .ok { st with classes := st.classes ++ [r] }
  | none =>
    if r.capacity ≤ 0 then
      .error (.check "check_class_capacity_positive")
    else if st.classes.any (fun c => c.room_id == r.room_id && c.class_time == r.class_time) then
      .error (.unique "uq_room_time")
    else if !st.trainers.any (fun t => t.trainer_id == r.trainer_id) then
      .error (.fk "Class_trainer_id_fkey")
    else .error (.fk "Class_room_id_fkey")

/-- Insert into `HealthMetric`: foreign key on `member_id`. -/
def dbInsertMetric (st : DBState) (r : HealthMetricRow) : Except DBError DBState :=
  if !st.members.any (fun m => m.member_id == r.member_id) then
    .error (.fk "HealthMetric_member_id_fkey")
  else .ok { st with metrics := st.metrics ++ [r] }

/-- Insert into `PTSession`: unique `(trainer_id, session_time)`
(`uq_trainer_time`, checked at index insertion), then the foreign keys
on `member_id` and `trainer_id`. -/
def dbInsertPTSession (st : DBState) (r : PTSessionRow) : Except DBError DBState :=
  if st.ptsessions.any (fun p => p.trainer_id == r.trainer_id && p.session_time == r.session_time) then
    .error (.unique "uq_trainer_time")
  else if !st.members.any (fun m => m.member_id == r.member_id) then
    .error (.fk "PTSession_member_id_fkey")
  else if !st.trainers.any (fun t => t.trainer_id == r.trainer_id) then
    .error (.fk "PTSession_trainer_id_fkey")
  else .ok { st with ptsessions := st.ptsessions ++ [r] }

/-- Insert into `ClassEnrollment`: unique `(member_id, class_id)`
(`uq_member_class`), then the foreign keys on `member_id` and
`class_id`. -/
def dbInsertEnrollment (st : DBState) (r : EnrollmentRow) : Except DBError DBState :=
  if st.enrollments.any (fun e => e.member_id == r.member_id && e.class_id == r.class_id) then
    .error (.unique "uq_member_class")
  else if !st.members.any (fun m => m.member_id == r.member_id) then
    .error (.fk "ClassEnrollment_member_id_fkey")
  else if !st.classes.any (fun c => c.class_id == r.class_id) then
    .error (.fk "ClassEnrollment_class_id_fkey")
  else .ok { st with enrollments := st.enrollments ++ [r] }

/-- First member with the given id, as
`session.query(Member).filter(Member.member_id == member_id).first()`. -/
def findMember (st : DBState) (mid : Int) : Option MemberRow :=
  st.members.find? (fun m => m.member_id == mid)

/-- First class with the given id, as
`session.query(Class).filter(Class.class_id == class_id).first()`. -/
def findClass (st : DBState) (cid : Int) : Option ClassRow :=
  st.classes.find? (fun c => c.class_id == cid)

/-- Live enrollment count of a class, as
`session.query(ClassEnrollment).filter(ClassEnrollment.class_id == class_id).count()`. -/
def enrollCount (st : DBState) (cid : Int) : Nat :=
  (st.enrollments.filter (fun e => e.class_id == cid)).length

/-- Embeds `register_member` (`app/main.py` lines 183-214). Inputs are
the five prompted strings; empty optional inputs become NULL via
`input(...) or None`; an unparsable non-empty date-of-birth is dropped
with a printed warning and registration proceeds. A duplicate email is
caught as `IntegrityError` and rolled back. -/
def register_member (st : DBState) (name email dob_str gender phone : String) :
    DBState × Outcome Int :=
  let dob : Option Date := if dob_str = "" then none else parseDate dob_str
  let g : Option String := if gender = "" then none else some gender
  let p : Option String := if phone = "" then none else some phone
  let mid : Int := st.members.length + 1
  match dbInsertMember st ⟨mid, name, email, dob, g, p⟩ with
  | .ok st' => (st', .ok mid)
  | .error e => (st, .handled (.integrityViolation e))

/-- Embeds `update_member_profile` (`app/main.py` lines 217-248).
`int(input(...))` is unguarded, so a non-numeric id raises an uncaught
`ValueError`; a missing member prints "Member not found." and returns;
blank (after `strip`) name/phone inputs leave the field unchanged. -/
def update_member_profile (st : DBState) (id_str name_str phone_str : String) :
    DBState × Outcome Unit :=
  match pyInt id_str with
  | none => (st, .crash .valueError)
  | some mid =>
    match findMember st mid with
    | none => (st, .handled .notFound)
    | some m =>
      let newName : Option String := if pyStrip name_str = "" then none else some (pyStrip name_str)
      let newPhone : Option String := if pyStrip phone_str = "" then none else some (pyStrip phone_str)
      let m' : MemberRow :=
        { m with
          name := match newName with | some n => n | none => m.name
          phone := match newPhone with | some p => some p | none => m.phone }
      ({ st with members := st.members.map (fun x => if x.member_id == mid then m' else x) },
       .ok ())

/-- Embeds `add_health_metric` (`app/main.py` lines 251-274). Both
`int(input(...))` and `float(input(...))` are unguarded (uncaught
`ValueError` on bad input, in prompt order); a missing member prints
"Member not found." and returns before any insert. -/
def add_health_metric (st : DBState) (id_str metric_type value_str : String) (now : Nat) :
    DBState × Outcome Unit :=
  match pyInt id_str with
  | none => (st, .crash .valueError)
  | some mid =>
    match pyFloat value_str with
    | none => (st, .crash .valueError)
    | some v =>
      match findMember st mid with
      | none => (st, .handled .notFound)
      | some _ =>
        match dbInsertMetric st ⟨st.metrics.length + 1, mid, metric_type, v, now⟩ with
        | .ok st' => (st', .ok ())
        | .error _ => (st, .handled .unexpected)

/-- Embeds `book_pt_session` (`app/main.py` lines 277-315). Both id
prompts catch `ValueError` and return; an unparsable session time
prints the format message and returns; the insert is attempted with no
existence check on member or trainer, and `IntegrityError` is caught
and rolled back. -/
def book_pt_session (st : DBState) (member_str trainer_str time_str : String) :
    DBState × Outcome Unit :=
  match pyInt member_str with
  | none => (st, .handled .invalidInput)
  | some mid =>
    match pyInt trainer_str with
    | none => (st, .handled .invalidInput)
    | some tid =>
      match parseDateTime time_str with
      | none => (st, .handled .validationError)
      | some t =>
        match dbInsertPTSession st ⟨st.ptsessions.length + 1, mid, tid, t, "scheduled"⟩ with
        | .ok st' => (st', .ok ())
        | .error e => (st, .handled (.integrityViolation e))

/-- Embeds `signup_for_class` (`app/main.py` lines 350-415). Both id
prompts catch `ValueError`; missing member or class prints and returns;
an existing `(member, class)` row prints "already enrolled"; a count at
or above capacity prints "Class is full"; otherwise one enrollment
stamped `now` is inserted and the remaining capacity
`capacity - count - 1` is reported. -/
def signup_for_class (st : DBState) (member_str class_str : String) (now : Nat) :
    DBState × Outcome Int :=
  match pyInt member_str with
  | none => (st, .handled .invalidInput)
  | some mid =>
    match findMember st mid with
    | none => (st, .handled .notFound)
    | some _ =>
      match pyInt class_str with
      | none => (st, .handled .invalidInput)
      | some cid =>
        match findClass st cid with
        | none => (st, .handled .notFound)
        | some cls =>
          if st.enrollments.any (fun e => e.member_id == mid && e.class_id == cid) then
            (st, .handled .alreadyEnrolled)
          else if (enrollCount st cid : Int) ≥ cls.capacity then
            (st, .handled .classFull)
          else
            match dbInsertEnrollment st ⟨st.enrollments.length + 1, mid, cid, now⟩ with
            | .ok st' => (st', .ok (cls.capacity - enrollCount st cid - 1))
            | .error e => (st, .handled (.integrityViolation e))

/-- Embeds `create_trainer` (`app/main.py` lines 506-530). Empty
specialization becomes NULL; `IntegrityError` (duplicate email) is
caught and rolled back. -/
def create_trainer (st : DBState) (name email specialization : String) :
    DBState × Outcome Int :=
  let sp : Option String := if specialization = "" then none else some specialization
  let tid : Int := st.trainers.length + 1
  match dbInsertTrainer st ⟨tid, name, email, sp⟩ with
  | .ok st' => (st', .ok tid)
  | .error e => (st, .handled (.integrityViolation e))

/-- Embeds `create_room` (`app/main.py` lines 533-548).
`int(input("Capacity: "))` is unguarded, so non-numeric capacity raises
an uncaught `ValueError`; database errors (duplicate name, non-positive
capacity) are caught and rolled back. -/
def create_room (st : DBState) (name capacity_str : String) :
    DBState × Outcome Int :=
  match pyInt capacity_str with
  | none => (st, .crash .valueError)
  | some cap =>
    let rid : Int := st.rooms.length + 1
    match dbInsertRoom st ⟨rid, name, cap⟩ with
    | .ok st' => (st', .ok rid)
    | .error e => (st, .handled (.integrityViolation e))

/-- Embeds `create_class` (`app/main.py` lines 551-582). The three
`int(input(...))` calls (trainer id, room id, capacity — all read
before the time is parsed) are unguarded, so non-numeric input raises
an uncaught `ValueError`; an unparsable time prints the format message
and returns; the insert is attempted with no application-layer
capacity pre-check: `IntegrityError`s are caught in one branch, the
trigger's raise falls to the generic `except Exception` branch. -/
def create_class (st : DBState) (trainer_str room_str class_name time_str capacity_str : String) :
    DBState × Outcome Unit :=
  match pyInt trainer_str with
  | none => (st, .crash .valueError)
  | some tid =>
    match pyInt room_str with
    | none => (st, .crash .valueError)
    | some rid =>
      match pyInt capacity_str with
      | none => (st, .crash .valueError)
      | some cap =>
        match parseDateTime time_str with
        | none => (st, .handled .validationError)
        | some t =>
          match dbInsertClass st ⟨st.classes.length + 1, tid, rid, class_name, t, cap⟩ with
          | .ok st' => (st', .ok ())
          | .error .triggerCapacity => (st, .handled .unexpected)
          | .error e => (st, .handled (.integrityViolation e))

/-- Embeds `authenticate_admin` (`app/main.py` lines 631-643): look up
the admin by username, succeed only on exact plaintext equality of the
stored credential with the entered password. -/
def authenticate_admin (st : DBState) (username password : String) : Option AdminRow :=
  match st.admins.find? (fun a => a.username == username) with
  | some admin => if admin.password_hash == password then some admin else none
  | none => none

/-- Embeds `create_default_admin` (`app/main.py` lines 646-657): if no
admin with username "admin" exists, insert the default admin with
literal plaintext password "admin123". The caller in `main_menu`
catches any failure of the insert. -/
def create_default_admin (st : DBState) : DBState × Outcome Unit :=
  if st.admins.any (fun a => a.username == "admin") then (st, .ok ())
  else
    match dbInsertAdmin st
        ⟨st.admins.length + 1, "admin", "admin123", "System Administrator",
         "admin@fitnessclub.com"⟩ with
    | .ok st' => (st', .ok ())
    | .error e => (st, .handled (.integrityViolation e))

/-- Row of the view `MemberHealthSummary` (`app/main.py` lines 64-81):
metric fields are NULL for a member with no health metrics. -/
structure SummaryRow where
  member_id : Int
  member_name : String
  email : String
  metric_type : Option String
  metric_value : Option Int
  last_metric_time : Option Nat
deriving DecidableEq

/-- The lateral subquery of the view: first row of the member's metrics
ordered by `timestamp DESC`, `LIMIT 1`. A strictly later metric
replaces the current candidate; among equal timestamps the choice is
unspecified in SQL and modelled as keeping the earlier list element. -/
def latestMetricOf (metrics : List HealthMetricRow) : Option HealthMetricRow :=
  metrics.foldl
    (fun acc h =>
      match acc with
      | none => some h
      | some b => if b.timestamp < h.timestamp then some h else some b)
    none

/-- Embeds the view `MemberHealthSummary` (`app/main.py` lines 64-81):
`Member LEFT JOIN LATERAL (top-1 metric by timestamp DESC) ON TRUE`. -/
def memberHealthSummary (st : DBState) : List SummaryRow :=
  st.members.map (fun m =>
    match latestMetricOf (st.metrics.filter (fun h => h.member_id == m.member_id)) with
    | none => ⟨m.member_id, m.name, m.email, none, none, none⟩
    | some h =>
      ⟨m.member_id, m.name, m.email, some h.metric_type, some h.metric_value,
       some h.timestamp⟩)

/-- True exactly for `Outcome.crash`: the operation let an exception
escape and the process terminates. -/
def Outcome.isCrash {α : Type} : Outcome α → Bool
  | .crash _ => true
  | _ => false

/-- True exactly for `Outcome.ok`: the operation committed. -/
def Outcome.isOk {α : Type} : Outcome α → Bool
  | .ok _ => true
  | _ => false

/-! ### Concrete scenario states

States built by running the operations from the empty store, used for
the closed instantiations of the theorems below. -/

/-- Room 1 "Studio A" with capacity 10. -/
def roomSt : DBState := (create_room initState "Studio A" "10").1

/-- Adds trainer 1. -/
def trainSt : DBState := (create_trainer roomSt "Tina" "tina@club.com" "Yoga").1

/-- Adds member 1 Alice. -/
def aliceSt : DBState := (register_member trainSt "Alice" "alice@club.com" "" "" "").1

/-- Adds member 2 Bob. -/
def bobSt : DBState := (register_member aliceSt "Bob" "bob@club.com" "" "" "").1

/-- Adds class 1 in room 1 with capacity 2. -/
def classSt : DBState := (create_class bobSt "1" "1" "Yoga" "2025-03-01 10:00" "2").1

/-- Alice enrolled in class 1 at instant 5. -/
def enrolledSt : DBState := (signup_for_class classSt "1" "1" 5).1

/-- Room 1 "Studio B" with capacity 5. -/
def smallRoomSt : DBState := (create_room initState "Studio B" "5").1

/-- Trainer 1 next to the small room. -/
def c1St : DBState := (create_trainer smallRoomSt "Tina" "tina@club.com" "").1

/-- Alice's store after a PT session with trainer 1 is booked. -/
def bookedSt : DBState :=
  { aliceSt with ptsessions :=
      aliceSt.ptsessions ++
        [⟨(aliceSt.ptsessions.length : Int) + 1, 1, 1, ⟨2025, 3, 1, 10, 0⟩, "scheduled"⟩] }

/-- Alice's store plus one Weight metric at instant 5. -/
def metricSt1 : DBState := (add_health_metric aliceSt "1" "Weight" "70.5" 5).1

/-- Alice's store plus Weight metrics at instants 5 and 9. -/
def metricSt : DBState := (add_health_metric metricSt1 "1" "Weight" "71.0" 9).1

/-- The class row created in `classSt`. -/
def c3Class : ClassRow := ⟨1, 1, 1, "Yoga", ⟨2025, 3, 1, 10, 0⟩, 2⟩

/-- Agreement on the tables the capacity invariant reads. -/
def sameCore (st st' : DBState) : Prop :=
  st'.rooms = st.rooms ∧ st'.classes = st.classes ∧ st'.enrollments = st.enrollments

/-! ### Reachability and the capacity invariant -/

/-- States reachable from the empty store by sequential execution of the
in-scope business operations with arbitrary operator input. -/
inductive Reachable : DBState → Prop where
  | init : Reachable initState
  | register (st : DBState) (a b c d e : String) :
      Reachable st → Reachable (register_member st a b c d e).1
  | update (st : DBState) (a b c : String) :
      Reachable st → Reachable (update_member_profile st a b c).1
  | metric (st : DBState) (a b c : String) (now : Nat) :
      Reachable st → Reachable (add_health_metric st a b c now).1
  | book (st : DBState) (a b c : String) :
      Reachable st → Reachable (book_pt_session st a b c).1
  | signup (st : DBState) (a b : String) (now : Nat) :
      Reachable st → Reachable (signup_for_class st a b now).1
  | trainer (st : DBState) (a b c : String) :
      Reachable st → Reachable (create_trainer st a b c).1
  | room (st : DBState) (a b : String) :
      Reachable st → Reachable (create_room st a b).1
  | cls (st : DBState) (a b c d e : String) :
      Reachable st → Reachable (create_class st a b c d e).1
  | defaultAdmin (st : DBState) :
      Reachable st → Reachable (create_default_admin st).1

/-- The capacity chain for one class: its live enrollment count is at
most its capacity, which is at most the capacity of its room. -/
def ClassCapOK (st : DBState) (c : ClassRow) : Prop :=
  (enrollCount st c.class_id : Int) ≤ c.capacity ∧
  ∃ r, findRoom st c.room_id = some r ∧ c.capacity ≤ r.capacity

/-- Well-formedness of an id column: pairwise distinct and each id in
`1..length`, as maintained by an auto-increment sequence with no
deletes. -/
def IdsOK (ids : List Int) : Prop :=
  ids.Nodup ∧ ∀ i ∈ ids, 1 ≤ i ∧ i ≤ (ids.length : Int)

/-- The inductive invariant: well-formed room and class ids, the
capacity chain for every class, and referential integrity of
enrollments into classes. -/
def Inv (st : DBState) : Prop :=
  IdsOK (st.rooms.map (fun r => r.room_id)) ∧
  IdsOK (st.classes.map (fun c => c.class_id)) ∧
  (∀ c ∈ st.classes, ClassCapOK st c) ∧
  (∀ e ∈ st.enrollments, ∃ c ∈ st.classes, c.class_id = e.class_id)

/-- The empty store satisfies the invariant. -/
lemma inv_init : Inv initState := by
  refine ⟨⟨List.nodup_nil, ?_⟩, ⟨List.nodup_nil, ?_⟩, ?_, ?_⟩ <;> simp [initState]

lemma enrollCount_congr {st st' : DBState} (h : st'.enrollments = st.enrollments)
    (cid : Int) : enrollCount st' cid = enrollCount st cid := by
  unfold enrollCount; rw [h]

lemma findRoom_congr {st st' : DBState} (h : st'.rooms = st.rooms)
    (rid : Int) : findRoom st' rid = findRoom st rid := by
  unfold findRoom; rw [h]

lemma inv_of_sameCore {st st' : DBState} (h : sameCore st st') (hi : Inv st) : Inv st' := by
  obtain ⟨hr, hc, he⟩ := h
  obtain ⟨h1, h2, h3, h4⟩ := hi
  refine ⟨?_, ?_, ?_, ?_⟩
  · rw [hr]; exact h1
  · rw [hc]; exact h2
  · intro c hcmem
    rw [hc] at hcmem
    obtain ⟨hcnt, r, hfr, hcap⟩ := h3 c hcmem
    exact ⟨by rw [enrollCount_congr he]; exact hcnt, r, by rw [findRoom_congr hr]; exact hfr, hcap⟩
  · intro e hemem
    rw [he] at hemem
    obtain ⟨c, hcmem, hid⟩ := h4 e hemem
    exact ⟨c, by rw [hc]; exact hcmem, hid⟩

lemma find?_append_some {α : Type} (p : α → Bool) {l₁ : List α} (l₂ : List α) {a : α}
    (h : l₁.find? p = some a) : (l₁ ++ l₂).find? p = some a := by
  induction l₁ with
  | nil => simp [List.find?] at h
  | cons x xs ih =>
    rw [List.cons_append]
    cases hp : p x with
    | true =>
      rw [List.find?_cons_of_pos _ hp] at h ⊢
      exact h
    | false =>
      rw [List.find?_cons_of_neg _ (by simp [hp])] at h ⊢
      exact ih h

lemma dbInsertMember_sameCore {st : DBState} {r : MemberRow} {st' : DBState}
    (h : dbInsertMember st r = .ok st') : sameCore st st' := by
  unfold dbInsertMember at h
  split at h
  · simp at h
  · injection h with h2; subst h2; exact ⟨rfl, rfl, rfl⟩

lemma dbInsertTrainer_sameCore {st : DBState} {r : TrainerRow} {st' : DBState}
    (h : dbInsertTrainer st r = .ok st') : sameCore st st' := by
  unfold dbInsertTrainer at h
  split at h
  · simp at h
  · injection h with h2; subst h2; exact ⟨rfl, rfl, rfl⟩

lemma dbInsertAdmin_sameCore {st : DBState} {r : AdminRow} {st' : DBState}
    (h : dbInsertAdmin st r = .ok st') : sameCore st st' := by
  unfold dbInsertAdmin at h
  split at h
  · simp at h
  · split at h
    · simp at h
    · injection h with h2; subst h2; exact ⟨rfl, rfl, rfl⟩

lemma dbInsertMetric_sameCore {st : DBState} {r : HealthMetricRow} {st' : DBState}
    (h : dbInsertMetric st r = .ok st') : sameCore st st' := by
  unfold dbInsertMetric at h
  split at h
  · simp at h
  · injection h with h2; subst h2; exact ⟨rfl, rfl, rfl⟩

lemma dbInsertPTSession_sameCore {st : DBState} {r : PTSessionRow} {st' : DBState}
    (h : dbInsertPTSession st r = .ok st') : sameCore st st' := by
  unfold dbInsertPTSession at h
  split at h
  · simp at h
  · split at h
    · simp at h
    · split at h
      · simp at h
      · injection h with h2; subst h2; exact ⟨rfl, rfl, rfl⟩

lemma register_member_sameCore (st : DBState) (a b c d e : String) :
    sameCore st (register_member st a b c d e).1 := by
  unfold register_member
  dsimp only
  repeat' split
  all_goals first
    | exact ⟨rfl, rfl, rfl⟩
    | (rename_i st' h; exact dbInsertMember_sameCore h)

lemma update_member_profile_sameCore (st : DBState) (a b c : String) :
    sameCore st (update_member_profile st a b c).1 := by
  unfold update_member_profile
  dsimp only
  repeat' split
  all_goals exact ⟨rfl, rfl, rfl⟩

lemma add_health_metric_sameCore (st : DBState) (a b c : String) (now : Nat) :
    sameCore st (add_health_metric st a b c now).1 := by
  unfold add_health_metric
  split
  · exact ⟨rfl, rfl, rfl⟩
  · split
    · exact ⟨rfl, rfl, rfl⟩
    · split
      · exact ⟨rfl, rfl, rfl⟩
      · split
        · next st' h => exact dbInsertMetric_sameCore h
        · exact ⟨rfl, rfl, rfl⟩

lemma book_pt_session_sameCore (st : DBState) (a b c : String) :
    sameCore st (book_pt_session st a b c).1 := by
  unfold book_pt_session
  split
  · exact ⟨rfl, rfl, rfl⟩
  · split
    · exact ⟨rfl, rfl, rfl⟩
    · split
      · exact ⟨rfl, rfl, rfl⟩
      · split
        · next st' h => exact dbInsertPTSession_sameCore h
        · exact ⟨rfl, rfl, rfl⟩

lemma create_trainer_sameCore (st : DBState) (a b c : String) :
    sameCore st (create_trainer st a b c).1 := by
  unfold create_trainer
  dsimp only
  repeat' split
  all_goals first
    | exact ⟨rfl, rfl, rfl⟩
    | (rename_i st' h; exact dbInsertTrainer_sameCore h)

lemma create_default_admin_sameCore (st : DBState) :
    sameCore st (create_default_admin st).1 := by
  unfold create_default_admin
  split
  · exact ⟨rfl, rfl, rfl⟩
  · split
    · next st' h => exact dbInsertAdmin_sameCore h
    · exact ⟨rfl, rfl, rfl⟩

lemma dbInsertRoom_ok {st : DBState} {r : RoomRow} {st' : DBState}
    (h : dbInsertRoom st r = .ok st') :
    st' = { st with rooms := st.rooms ++ [r] } ∧ 0 < r.capacity := by
  unfold dbInsertRoom at h
  split at h
  · simp at h
  · split at h
    · simp at h
    · injection h with h2; subst h2; exact ⟨rfl, by omega⟩

lemma dbInsertClass_ok {st : DBState} {r : ClassRow} {st' : DBState}
    (h : dbInsertClass st r = .ok st') :
    st' = { st with classes := st.classes ++ [r] } ∧ 0 < r.capacity ∧
    ∃ room, findRoom st r.room_id = some room ∧ r.capacity ≤ room.capacity := by
  unfold dbInsertClass at h
  split at h
  case _ room hroom =>
    split at h
    · simp at h
    · split at h
      · simp at h
      · split at h
        · simp at h
        · split at h
          · simp at h
          · injection h with h2; subst h2
            exact ⟨rfl, by omega, room, hroom, by omega⟩
  case _ =>
    split at h
    · simp at h
    · split at h
      · simp at h
      · split at h <;> simp at h

lemma dbInsertEnrollment_ok {st : DBState} {r : EnrollmentRow} {st' : DBState}
    (h : dbInsertEnrollment st r = .ok st') :
    st' = { st with enrollments := st.enrollments ++ [r] } := by
  unfold dbInsertEnrollment at h
  split at h
  · simp at h
  · split at h
    · simp at h
    · split at h
      · simp at h
      · injection h with h2; subst h2; exact rfl

lemma inv_room_append {st : DBState} {r : RoomRow} (hi : Inv st)
    (hid : r.room_id = (st.rooms.length : Int) + 1) :
    Inv { st with rooms := st.rooms ++ [r] } := by
  obtain ⟨⟨hnd, hbd⟩, h2, h3, h4⟩ := hi
  refine ⟨⟨?_, ?_⟩, h2, ?_, h4⟩
  · simp only [List.map_append, List.map_cons, List.map_nil]
    rw [List.nodup_append]
    refine ⟨hnd, List.nodup_singleton _, ?_⟩
    intro i hi1 hi2
    simp only [List.mem_singleton] at hi2
    have := hbd i hi1
    simp only [List.length_map] at this
    omega
  · intro i hmem
    simp only [List.map_append, List.map_cons, List.map_nil, List.mem_append,
      List.mem_singleton] at hmem
    simp only [List.length_append, List.length_map, List.length_cons, List.length_nil]
    rcases hmem with hmem | rfl
    · have := hbd i hmem
      simp only [List.length_map] at this
      push_cast
      omega
    · push_cast
      omega
  · intro c hc
    obtain ⟨hcnt, r0, hfr, hcap⟩ := h3 c hc
    refine ⟨hcnt, r0, ?_, hcap⟩
    unfold findRoom at hfr ⊢
    exact find?_append_some _ _ hfr

lemma inv_class_append {st : DBState} {c : ClassRow} (hi : Inv st)
    (hid : c.class_id = (st.classes.length : Int) + 1)
    (hpos : 0 < c.capacity)
    {room : RoomRow} (hroom : findRoom st c.room_id = some room)
    (hcap : c.capacity ≤ room.capacity) :
    Inv { st with classes := st.classes ++ [c] } := by
  obtain ⟨h1, ⟨hnd, hbd⟩, h3, h4⟩ := hi
  have hfresh : ∀ e ∈ st.enrollments, e.class_id ≠ c.class_id := by
    intro e he
    obtain ⟨c0, hc0, hc0id⟩ := h4 e he
    have := hbd c0.class_id (List.mem_map_of_mem _ hc0)
    simp only [List.length_map] at this
    omega
  refine ⟨h1, ⟨?_, ?_⟩, ?_, ?_⟩
  · simp only [List.map_append, List.map_cons, List.map_nil]
    rw [List.nodup_append]
    refine ⟨hnd, List.nodup_singleton _, ?_⟩
    intro i hi1 hi2
    simp only [List.mem_singleton] at hi2
    have := hbd i hi1
    simp only [List.length_map] at this
    omega
  · intro i hmem
    simp only [List.map_append, List.map_cons, List.map_nil, List.mem_append,
      List.mem_singleton] at hmem
    simp only [List.length_append, List.length_map, List.length_cons, List.length_nil]
    rcases hmem with hmem | rfl
    · have := hbd i hmem
      simp only [List.length_map] at this
      push_cast
      omega
    · push_cast
      omega
  · intro c' hc'
    simp only [List.mem_append, List.mem_singleton] at hc'
    rcases hc' with hc' | hceq
    · exact h3 c' hc'
    · subst hceq
      refine ⟨?_, room, hroom, hcap⟩
      have hzero : enrollCount st c'.class_id = 0 := by
        unfold enrollCount
        rw [List.length_eq_zero]
        rw [List.filter_eq_nil_iff]
        intro e he
        simp only [beq_iff_eq]
        exact hfresh e he
      have hzero' : enrollCount { st with classes := st.classes ++ [c'] } c'.class_id = 0 :=
        hzero
      rw [hzero']
      omega
  · intro e he
    obtain ⟨c0, hc0, hc0id⟩ := h4 e he
    exact ⟨c0, List.mem_append_left _ hc0, hc0id⟩

lemma enrollCount_append (st : DBState) (e : EnrollmentRow) (cid : Int) :
    enrollCount { st with enrollments := st.enrollments ++ [e] } cid =
      enrollCount st cid + (if e.class_id = cid then 1 else 0) := by
  unfold enrollCount
  simp only [List.filter_append, List.length_append]
  congr 1
  by_cases h : e.class_id = cid
  · simp [List.filter_singleton, beq_iff_eq, h]
  · simp [List.filter_singleton, beq_iff_eq, h]

lemma inv_enroll_append {st : DBState} {e : EnrollmentRow} (hi : Inv st)
    {cls : ClassRow} (hcls : findClass st e.class_id = some cls)
    (hcnt : (enrollCount st e.class_id : Int) + 1 ≤ cls.capacity) :
    Inv { st with enrollments := st.enrollments ++ [e] } := by
  obtain ⟨h1, h2, h3, h4⟩ := hi
  have hclsmem : cls ∈ st.classes := List.mem_of_find?_eq_some hcls
  have hclsid : cls.class_id = e.class_id := by
    have := List.find?_some hcls
    simpa [beq_iff_eq] using this
  refine ⟨h1, h2, ?_, ?_⟩
  · intro c hc
    obtain ⟨hcount, r0, hfr, hcap⟩ := h3 c hc
    refine ⟨?_, r0, hfr, hcap⟩
    rw [enrollCount_append]
    by_cases hceq : e.class_id = c.class_id
    · have hcc : c = cls :=
        List.inj_on_of_nodup_map h2.1 hc hclsmem ((hclsid.trans hceq).symm)
      subst hcc
      rw [if_pos hceq, ← hceq]
      push_cast
      omega
    · simp only [if_neg hceq]
      exact hcount
  · intro e' he'
    simp only [List.mem_append, List.mem_singleton] at he'
    rcases he' with he' | rfl
    · exact h4 e' he'
    · exact ⟨cls, hclsmem, hclsid⟩

lemma create_room_inv (st : DBState) (a b : String) (hi : Inv st) :
    Inv (create_room st a b).1 := by
  unfold create_room
  dsimp only
  split
  · exact hi
  · split
    · next st' h =>
      obtain ⟨rfl, hpos⟩ := dbInsertRoom_ok h
      exact inv_room_append hi rfl
    · exact hi

lemma create_class_inv (st : DBState) (a b c d e : String) (hi : Inv st) :
    Inv (create_class st a b c d e).1 := by
  unfold create_class
  split
  · exact hi
  · split
    · exact hi
    · split
      · exact hi
      · split
        · exact hi
        · split
          · next st' h =>
            obtain ⟨rfl, hpos, room, hroom, hcap⟩ := dbInsertClass_ok h
            exact inv_class_append hi rfl hpos hroom hcap
          · exact hi
          · exact hi

lemma signup_for_class_inv (st : DBState) (a b : String) (now : Nat) (hi : Inv st) :
    Inv (signup_for_class st a b now).1 := by
  unfold signup_for_class
  split
  · exact hi
  · next mid hmid =>
    split
    · exact hi
    · next m hm =>
      split
      · exact hi
      · next cid hcid =>
        split
        · exact hi
        · next cls hcls =>
          split
          · exact hi
          · split
            · exact hi
            · next hfull =>
              split
              · next st' h =>
                obtain rfl := dbInsertEnrollment_ok h
                refine @inv_enroll_append st _ hi cls ?_ ?_
                · exact hcls
                · show (enrollCount st cid : Int) + 1 ≤ cls.capacity
                  omega
              · exact hi

/-- Every reachable state satisfies the inductive invariant. -/
lemma inv_reachable {st : DBState} (h : Reachable st) : Inv st := by
  induction h with
  | init => exact inv_init
  | register st a b c d e _ ih => exact inv_of_sameCore (register_member_sameCore st a b c d e) ih
  | update st a b c _ ih => exact inv_of_sameCore (update_member_profile_sameCore st a b c) ih
  | metric st a b c now _ ih => exact inv_of_sameCore (add_health_metric_sameCore st a b c now) ih
  | book st a b c _ ih => exact inv_of_sameCore (book_pt_session_sameCore st a b c) ih
  | signup st a b now _ ih => exact signup_for_class_inv st a b now ih
  | trainer st a b c _ ih => exact inv_of_sameCore (create_trainer_sameCore st a b c) ih
  | room st a b _ ih => exact create_room_inv st a b ih
  | cls st a b c d e _ ih => exact create_class_inv st a b c d e ih
  | defaultAdmin st _ ih => exact inv_of_sameCore (create_default_admin_sameCore st) ih

lemma book_pt_session_no_crash (st : DBState) (a b c : String) :
    ((book_pt_session st a b c).2).isCrash = false := by
  unfold book_pt_session
  repeat' split
  all_goals rfl

lemma signup_for_class_no_crash (st : DBState) (a b : String) (now : Nat) :
    ((signup_for_class st a b now).2).isCrash = false := by
  unfold signup_for_class
  repeat' split
  all_goals rfl

lemma register_member_no_crash (st : DBState) (a b c d e : String) :
    ((register_member st a b c d e).2).isCrash = false := by
  unfold register_member
  dsimp only
  repeat' split
  all_goals rfl

lemma create_trainer_no_crash (st : DBState) (a b c : String) :
    ((create_trainer st a b c).2).isCrash = false := by
  unfold create_trainer
  dsimp only
  repeat' split
  all_goals rfl

lemma register_member_state_cases (st : DBState) (a b c d e : String) :
    ((register_member st a b c d e).2).isOk = true ∨ (register_member st a b c d e).1 = st := by
  unfold register_member
  dsimp only
  repeat' split
  all_goals first | (left; rfl) | (right; rfl)

lemma update_member_profile_state_cases (st : DBState) (a b c : String) :
    ((update_member_profile st a b c).2).isOk = true ∨
      (update_member_profile st a b c).1 = st := by
  unfold update_member_profile
  dsimp only
  repeat' split
  all_goals first | (left; rfl) | (right; rfl)

lemma add_health_metric_state_cases (st : DBState) (a b c : String) (now : Nat) :
    ((add_health_metric st a b c now).2).isOk = true ∨
      (add_health_metric st a b c now).1 = st := by
  unfold add_health_metric
  repeat' split
  all_goals first | (left; rfl) | (right; rfl)

lemma book_pt_session_state_cases (st : DBState) (a b c : String) :
    ((book_pt_session st a b c).2).isOk = true ∨ (book_pt_session st a b c).1 = st := by
  unfold book_pt_session
  repeat' split
  all_goals first | (left; rfl) | (right; rfl)

lemma signup_for_class_state_cases (st : DBState) (a b : String) (now : Nat) :
    ((signup_for_class st a b now).2).isOk = true ∨ (signup_for_class st a b now).1 = st := by
  unfold signup_for_class
  repeat' split
  all_goals first | (left; rfl) | (right; rfl)

lemma create_trainer_state_cases (st : DBState) (a b c : String) :
    ((create_trainer st a b c).2).isOk = true ∨ (create_trainer st a b c).1 = st := by
  unfold create_trainer
  dsimp only
  repeat' split
  all_goals first | (left; rfl) | (right; rfl)

lemma create_room_state_cases (st : DBState) (a b : String) :
    ((create_room st a b).2).isOk = true ∨ (create_room st a b).1 = st := by
  unfold create_room
  dsimp only
  repeat' split
  all_goals first | (left; rfl) | (right; rfl)

lemma create_class_state_cases (st : DBState) (a b c d e : String) :
    ((create_class st a b c d e).2).isOk = true ∨ (create_class st a b c d e).1 = st := by
  unfold create_class
  repeat' split
  all_goals first | (left; rfl) | (right; rfl)

lemma any_eq_true_of_find? {α : Type} {l : List α} {p : α → Bool} {a : α}
    (h : l.find? p = some a) : l.any p = true :=
  List.any_eq_true.mpr ⟨a, List.mem_of_find?_eq_some h, List.find?_some h⟩

/-! ### Claim C1 -/

/-- C1 counterexample: with room 1 of capacity 5, submitting a class of
capacity 6 does not produce the spec's `CapacityExceedsRoom`
application-layer rejection — `create_class` performs no pre-check and
the trigger's raise surfaces through the generic exception branch. -/
theorem create_class_no_pre_check :
    (create_class c1St "1" "1" "Yoga" "2025-03-01 10:00" "6").2 ≠
      Outcome.handled AppError.capacityExceedsRoom ∧
    (create_class c1St "1" "1" "Yoga" "2025-03-01 10:00" "6").2 =
      Outcome.handled AppError.unexpected := by
  constructor
  · decide
  · decide

/-- C1 amended: `create_class` performs no application-layer capacity
pre-check; whenever the parsed inputs reference an existing room whose
capacity is below the submitted capacity, the insert is rejected by the
server-side trigger, surfaced through the generic exception handler
(not as `CapacityExceedsRoom`), and no `Class` row is created (the
state is returned unchanged). -/
theorem create_class_capacity_rejected_by_trigger (st : DBState)
    (ts rs cn tms cs : String) (tid rid cap : Int) (t : DateTime) (room : RoomRow)
    (hts : pyInt ts = some tid) (hrs : pyInt rs = some rid) (hcs : pyInt cs = some cap)
    (htm : parseDateTime tms = some t)
    (hroom : findRoom st rid = some room) (hlt : room.capacity < cap) :
    create_class st ts rs cn tms cs = (st, .handled .unexpected) := by
  unfold create_class
  rw [hts, hrs, hcs, htm]
  unfold dbInsertClass
  dsimp only
  rw [hroom]
  dsimp only
  rw [if_pos hlt]

/-- Closed instantiation of
`create_class_capacity_rejected_by_trigger` on room capacity 5 and
submitted capacity 6. -/
theorem create_class_capacity_rejected_by_trigger_witness :
    create_class c1St "1" "1" "Yoga" "2025-03-01 10:00" "6" =
      (c1St, .handled .unexpected) :=
  create_class_capacity_rejected_by_trigger c1St "1" "1" "Yoga" "2025-03-01 10:00" "6"
    1 1 6 ⟨2025, 3, 1, 10, 0⟩ ⟨1, "Studio B", 5⟩
    (by decide) (by decide) (by decide) (by decide) (by decide) (by decide)

/-! ### Claim C2 -/

/-- C2 counterexample: non-numeric text where an integer is expected is
not caught by every operation — `update_member_profile` and
`create_room` raise an uncaught `ValueError` (`int(input(...))` outside
any `try`), terminating the process instead of returning to the menu. -/
theorem operations_can_crash :
    (update_member_profile initState "abc" "" "").2 = Outcome.crash PyError.valueError ∧
    (create_room initState "Studio" "lots").2 = Outcome.crash PyError.valueError := by
  constructor
  · decide
  · decide

/-- C2 amended: `book_pt_session`, `signup_for_class`,
`register_member` and `create_trainer` never let an exception escape on
any operator input, but `update_member_profile`, `add_health_metric`,
`create_room` and `create_class` crash the process on non-numeric
numeric input; in all cases every operation that does not commit
returns the store unchanged (failures are caught and rolled back, or
nothing was written before the crash) — no half-committed state. -/
theorem operations_failure_policy (st : DBState) (a b c d e : String) (now : Nat) :
    ((book_pt_session st a b c).2).isCrash = false ∧
    ((signup_for_class st a b now).2).isCrash = false ∧
    ((register_member st a b c d e).2).isCrash = false ∧
    ((create_trainer st a b c).2).isCrash = false ∧
    (pyInt a = none → (update_member_profile st a b c).2 = .crash .valueError) ∧
    (pyInt a = none → (add_health_metric st a b c now).2 = .crash .valueError) ∧
    (pyInt b = none → (create_room st a b).2 = .crash .valueError) ∧
    (pyInt a = none → (create_class st a b c d e).2 = .crash .valueError) ∧
    (((register_member st a b c d e).2).isOk = false → (register_member st a b c d e).1 = st) ∧
    (((update_member_profile st a b c).2).isOk = false →
      (update_member_profile st a b c).1 = st) ∧
    (((add_health_metric st a b c now).2).isOk = false →
      (add_health_metric st a b c now).1 = st) ∧
    (((book_pt_session st a b c).2).isOk = false → (book_pt_session st a b c).1 = st) ∧
    (((signup_for_class st a b now).2).isOk = false → (signup_for_class st a b now).1 = st) ∧
    (((create_trainer st a b c).2).isOk = false → (create_trainer st a b c).1 = st) ∧
    (((create_room st a b).2).isOk = false → (create_room st a b).1 = st) ∧
    (((create_class st a b c d e).2).isOk = false → (create_class st a b c d e).1 = st) := by
  refine ⟨book_pt_session_no_crash st a b c, signup_for_class_no_crash st a b now,
    register_member_no_crash st a b c d e, create_trainer_no_crash st a b c,
    ?_, ?_, ?_, ?_, ?_, ?_, ?_, ?_, ?_, ?_, ?_, ?_⟩
  · intro h; unfold update_member_profile; rw [h]
  · intro h; unfold add_health_metric; rw [h]
  · intro h; unfold create_room; rw [h]
  · intro h; unfold create_class; rw [h]
  · intro h
    exact (register_member_state_cases st a b c d e).resolve_left (by simp [h])
  · intro h
    exact (update_member_profile_state_cases st a b c).resolve_left (by simp [h])
  · intro h
    exact (add_health_metric_state_cases st a b c now).resolve_left (by simp [h])
  · intro h
    exact (book_pt_session_state_cases st a b c).resolve_left (by simp [h])
  · intro h
    exact (signup_for_class_state_cases st a b now).resolve_left (by simp [h])
  · intro h
    exact (create_trainer_state_cases st a b c).resolve_left (by simp [h])
  · intro h
    exact (create_room_state_cases st a b).resolve_left (by simp [h])
  · intro h
    exact (create_class_state_cases st a b c d e).resolve_left (by simp [h])

/-- Closed instantiation of `operations_failure_policy`: a garbled
booking input is caught, and a crashed profile update leaves the empty
store untouched. -/
theorem operations_failure_policy_witness :
    ((book_pt_session initState "oops" "1" "2025-03-01 10:00").2).isCrash = false ∧
    (update_member_profile initState "oops" "x" "y").1 = initState := by
  have h := operations_failure_policy initState "oops" "1" "2025-03-01 10:00" "z" "w" 0
  exact ⟨h.1, h.2.2.2.2.2.2.2.2.2.1 (by decide)⟩

/-! ### Claim C3 -/

/-- C3: in every state reachable by the sequential execution of the
in-scope operations, every class's live enrollment count is at most its
capacity, which is at most the capacity of its (existing) room — the
class-room bound being enforced by the trigger on every class write and
the enrollment bound by the pre-insert check of `signup_for_class`. -/
theorem reachable_capacity_invariant (st : DBState) (c : ClassRow)
    (h : Reachable st) (hc : c ∈ st.classes) :
    (enrollCount st c.class_id : Int) ≤ c.capacity ∧
    ∃ r, findRoom st c.room_id = some r ∧ c.capacity ≤ r.capacity :=
  (inv_reachable h).2.2.1 c hc

/-- Closed instantiation of `reachable_capacity_invariant` on the
six-operation scenario ending in `enrolledSt`. -/
theorem reachable_capacity_invariant_witness :
    (enrollCount enrolledSt c3Class.class_id : Int) ≤ c3Class.capacity ∧
    ∃ r, findRoom enrolledSt c3Class.room_id = some r ∧ c3Class.capacity ≤ r.capacity :=
  reachable_capacity_invariant enrolledSt c3Class
    (Reachable.signup classSt "1" "1" 5
      (Reachable.cls bobSt "1" "1" "Yoga" "2025-03-01 10:00" "2"
        (Reachable.register aliceSt "Bob" "bob@club.com" "" "" ""
          (Reachable.register trainSt "Alice" "alice@club.com" "" "" ""
            (Reachable.trainer roomSt "Tina" "tina@club.com" "Yoga"
              (Reachable.room initState "Studio A" "10" Reachable.init))))))
    (by decide)

/-! ### Claim C4 -/

/-- C4: given an existing member id and an existing class id,
`signup_for_class` rejects with AlreadyEnrolled when a (member, class)
enrollment row already exists (state — hence the enrollment count —
unchanged), rejects with ClassFull when the class's enrollment count is
at least its capacity, and otherwise inserts exactly one enrollment
stamped with the current instant and reports the remaining capacity,
the capacity minus the new count. -/
theorem signup_for_class_behavior (st : DBState) (a b : String) (now : Nat)
    (mid cid : Int) (m : MemberRow) (cls : ClassRow)
    (ha : pyInt a = some mid) (hm : findMember st mid = some m)
    (hb : pyInt b = some cid) (hc : findClass st cid = some cls) :
    (st.enrollments.any (fun e => e.member_id == mid && e.class_id == cid) = true →
      signup_for_class st a b now = (st, .handled .alreadyEnrolled)) ∧
    (st.enrollments.any (fun e => e.member_id == mid && e.class_id == cid) = false →
      (enrollCount st cid : Int) ≥ cls.capacity →
      signup_for_class st a b now = (st, .handled .classFull)) ∧
    (st.enrollments.any (fun e => e.member_id == mid && e.class_id == cid) = false →
      (enrollCount st cid : Int) < cls.capacity →
      signup_for_class st a b now =
        ({ st with enrollments :=
            st.enrollments ++ [⟨(st.enrollments.length : Int) + 1, mid, cid, now⟩] },
         .ok (cls.capacity - ((enrollCount st cid : Int) + 1))) ∧
      enrollCount (signup_for_class st a b now).1 cid = enrollCount st cid + 1) := by
  have hmm : st.members.any (fun x => x.member_id == mid) = true := any_eq_true_of_find? hm
  have hcm : st.classes.any (fun x => x.class_id == cid) = true := any_eq_true_of_find? hc
  have hbase : ∀ h1 : st.enrollments.any
      (fun e => e.member_id == mid && e.class_id == cid) = false,
      ∀ h2 : (enrollCount st cid : Int) < cls.capacity,
      signup_for_class st a b now =
        ({ st with enrollments :=
            st.enrollments ++ [⟨(st.enrollments.length : Int) + 1, mid, cid, now⟩] },
         .ok (cls.capacity - (enrollCount st cid : Int) - 1)) := by
    intro h1 h2
    unfold signup_for_class
    simp only [ha, hm, hb, hc]
    rw [if_neg (by simp [h1])]
    rw [if_neg (not_le.mpr h2)]
    unfold dbInsertEnrollment
    dsimp only
    rw [if_neg (by simp [h1]), if_neg (by simp [hmm]), if_neg (by simp [hcm])]
  refine ⟨?_, ?_, ?_⟩
  · intro h1
    unfold signup_for_class
    simp only [ha, hm, hb, hc]
    rw [if_pos h1]
  · intro h1 h2
    unfold signup_for_class
    simp only [ha, hm, hb, hc]
    rw [if_neg (by simp [h1])]
    rw [if_pos h2]
  · intro h1 h2
    have heq := hbase h1 h2
    constructor
    · rw [heq]
      simp only [Prod.mk.injEq, Outcome.ok.injEq]
      exact ⟨trivial, by ring⟩
    · rw [heq]
      rw [enrollCount_append]
      simp

/-- Closed instantiation of `signup_for_class_behavior`: Bob (member 2)
joins class 1, already holding Alice's enrollment, and the count rises
from 1 to 2 with 0 spaces reported. -/
theorem signup_for_class_behavior_witness :
    signup_for_class enrolledSt "2" "1" 9 =
      ({ enrolledSt with enrollments :=
          enrolledSt.enrollments ++ [⟨(enrolledSt.enrollments.length : Int) + 1, 2, 1, 9⟩] },
       .ok ((2 : Int) - ((enrollCount enrolledSt 1 : Int) + 1))) ∧
    enrollCount (signup_for_class enrolledSt "2" "1" 9).1 1 = enrollCount enrolledSt 1 + 1 := by
  have h := signup_for_class_behavior enrolledSt "2" "1" 9 2 1
    ⟨2, "Bob", "bob@club.com", none, none, none⟩ c3Class
    (by decide) (by decide) (by decide) (by decide)
  exact h.2.2 (by decide) (by decide)

/-! ### Claim C5 -/

/-- C5: `book_pt_session` fails with ValidationError (state unchanged,
so no row inserted) when the session time does not parse; with parsed
inputs it performs no existence check on the member or trainer before
the insert, so a missing member surfaces as a generic foreign-key
integrity error; a successful booking inserts one session with status
"scheduled", and a second booking for the same trainer at the identical
time then fails with the `uq_trainer_time` IntegrityViolation while the
first session remains committed with status "scheduled". -/
theorem book_pt_session_behavior (st : DBState) (a b c : String) (mid tid : Int)
    (ha : pyInt a = some mid) (hb : pyInt b = some tid) :
    (parseDateTime c = none → book_pt_session st a b c = (st, .handled .validationError)) ∧
    (∀ t, parseDateTime c = some t →
      (st.ptsessions.any (fun p => p.trainer_id == tid && p.session_time == t) = true →
        book_pt_session st a b c =
          (st, .handled (.integrityViolation (.unique "uq_trainer_time")))) ∧
      (st.ptsessions.any (fun p => p.trainer_id == tid && p.session_time == t) = false →
        st.members.any (fun x => x.member_id == mid) = false →
        book_pt_session st a b c =
          (st, .handled (.integrityViolation (.fk "PTSession_member_id_fkey")))) ∧
      (st.ptsessions.any (fun p => p.trainer_id == tid && p.session_time == t) = false →
        st.members.any (fun x => x.member_id == mid) = true →
        st.trainers.any (fun x => x.trainer_id == tid) = true →
        book_pt_session st a b c =
          ({ st with ptsessions :=
              st.ptsessions ++
                [⟨(st.ptsessions.length : Int) + 1, mid, tid, t, "scheduled"⟩] },
           .ok ()) ∧
        (⟨(st.ptsessions.length : Int) + 1, mid, tid, t, "scheduled"⟩ : PTSessionRow) ∈
          ({ st with ptsessions :=
              st.ptsessions ++
                [⟨(st.ptsessions.length : Int) + 1, mid, tid, t, "scheduled"⟩] }
            : DBState).ptsessions ∧
        (∀ a2 mid2, pyInt a2 = some mid2 →
          book_pt_session
            { st with ptsessions :=
                st.ptsessions ++
                  [⟨(st.ptsessions.length : Int) + 1, mid, tid, t, "scheduled"⟩] }
            a2 b c =
            ({ st with ptsessions :=
                st.ptsessions ++
                  [⟨(st.ptsessions.length : Int) + 1, mid, tid, t, "scheduled"⟩] },
             .handled (.integrityViolation (.unique "uq_trainer_time")))))) := by
  constructor
  · intro h
    unfold book_pt_session
    simp only [ha, hb, h]
  · intro t ht
    refine ⟨?_, ?_, ?_⟩
    · intro hdup
      unfold book_pt_session
      simp only [ha, hb, ht]
      unfold dbInsertPTSession
      dsimp only
      rw [if_pos hdup]
    · intro hdup hmem
      unfold book_pt_session
      simp only [ha, hb, ht]
      unfold dbInsertPTSession
      dsimp only
      rw [if_neg (by simp [hdup])]
      rw [if_pos (by simp [hmem])]
    · intro hdup hmem htr
      refine ⟨?_, by simp, ?_⟩
      · unfold book_pt_session
        simp only [ha, hb, ht]
        unfold dbInsertPTSession
        dsimp only
        rw [if_neg (by simp [hdup]), if_neg (by simp [hmem]), if_neg (by simp [htr])]
      · intro a2 mid2 ha2
        have hdup2 : ((st.ptsessions ++
            [(⟨(st.ptsessions.length : Int) + 1, mid, tid, t, "scheduled"⟩ : PTSessionRow)]).any
              (fun p => p.trainer_id == tid && p.session_time == t)) = true := by
          have hmemrow : (⟨(st.ptsessions.length : Int) + 1, mid, tid, t, "scheduled"⟩
              : PTSessionRow) ∈
              st.ptsessions ++
                [⟨(st.ptsessions.length : Int) + 1, mid, tid, t, "scheduled"⟩] := by simp
          refine List.any_eq_true.mpr ⟨_, hmemrow, ?_⟩
          simp
        unfold book_pt_session
        simp only [ha2, hb, ht]
        unfold dbInsertPTSession
        dsimp only
        rw [if_pos hdup2]

/-- Closed instantiation of `book_pt_session_behavior`: Alice books
trainer 1 at 2025-03-01 10:00, a second identical booking is rejected
with the uniqueness violation while the first row stays "scheduled",
and a garbled time string is rejected up front. -/
theorem book_pt_session_behavior_witness :
    book_pt_session aliceSt "1" "1" "2025-03-01 10:00" = (bookedSt, .ok ()) ∧
    book_pt_session bookedSt "1" "1" "2025-03-01 10:00" =
      (bookedSt, .handled (.integrityViolation (.unique "uq_trainer_time"))) ∧
    (⟨(aliceSt.ptsessions.length : Int) + 1, 1, 1, ⟨2025, 3, 1, 10, 0⟩, "scheduled"⟩
      : PTSessionRow) ∈ bookedSt.ptsessions ∧
    book_pt_session aliceSt "1" "1" "garbage" = (aliceSt, .handled .validationError) := by
  have h := book_pt_session_behavior aliceSt "1" "1" "2025-03-01 10:00" 1 1
    (by decide) (by decide)
  have hg := book_pt_session_behavior aliceSt "1" "1" "garbage" 1 1
    (by decide) (by decide)
  obtain ⟨hok, hmem2, hdup⟩ :=
    (h.2 ⟨2025, 3, 1, 10, 0⟩ (by decide)).2.2 (by decide) (by decide) (by decide)
  exact ⟨hok, hdup "1" 1 (by decide), hmem2, hg.1 (by decide)⟩

/-! ### Claim C6 -/

lemma map_id_on {α : Type} (l : List α) (f : α → α) (h : ∀ x ∈ l, f x = x) :
    l.map f = l := by
  induction l with
  | nil => rfl
  | cons x xs ih =>
    rw [List.map_cons, h x (List.mem_cons_self x xs),
      ih (fun y hy => h y (List.mem_cons_of_mem x hy))]

lemma find?_map_of_pred {α β : Type} (f : α → β) (p : α → Bool) (q : β → Bool)
    (l : List α) (hcomm : ∀ x, q (f x) = p x) {a : α} (h : l.find? p = some a) :
    (l.map f).find? q = some (f a) := by
  induction l with
  | nil => simp [List.find?] at h
  | cons x xs ih =>
    cases hp : p x with
    | false =>
      rw [List.find?_cons_of_neg _ (by simp [hp])] at h
      rw [List.map_cons, List.find?_cons_of_neg _ (by simp [hcomm, hp])]
      exact ih h
    | true =>
      rw [List.find?_cons_of_pos _ hp] at h
      injection h with h2
      subst h2
      rw [List.map_cons, List.find?_cons_of_pos _ (by simp [hcomm, hp])]

/-- Characterization of a successful run of `update_member_profile`:
the found member is replaced by the record whose name and phone keep
their current values exactly when the corresponding stripped input is
blank. -/
lemma update_member_profile_run (st : DBState) (a nameIn phoneIn : String)
    (mid : Int) (m : MemberRow)
    (ha : pyInt a = some mid) (hm : findMember st mid = some m) :
    update_member_profile st a nameIn phoneIn =
      ({ st with members := st.members.map (fun x => if x.member_id == mid then
          ⟨m.member_id,
           (if pyStrip nameIn = "" then m.name else pyStrip nameIn),
           m.email, m.date_of_birth, m.gender,
           (if pyStrip phoneIn = "" then m.phone else some (pyStrip phoneIn))⟩
          else x) },
       .ok ()) := by
  unfold update_member_profile
  simp only [ha, hm]
  by_cases hn : pyStrip nameIn = "" <;> by_cases hp : pyStrip phoneIn = "" <;>
    simp [hn, hp]

/-- C6: updating an existing member with blank input for both the name
and the phone field leaves the store — hence every stored field of the
member row — unchanged and still reports success; blank input for
either individual field leaves that field unchanged. -/
theorem update_member_profile_blank (st : DBState) (a nameIn phoneIn : String)
    (mid : Int) (m : MemberRow)
    (ha : pyInt a = some mid) (hm : findMember st mid = some m)
    (hnd : (st.members.map (fun x => x.member_id)).Nodup) :
    (pyStrip nameIn = "" → pyStrip phoneIn = "" →
      update_member_profile st a nameIn phoneIn = (st, .ok ())) ∧
    (pyStrip nameIn = "" →
      ∃ m', findMember (update_member_profile st a nameIn phoneIn).1 mid = some m' ∧
        m'.name = m.name) ∧
    (pyStrip phoneIn = "" →
      ∃ m', findMember (update_member_profile st a nameIn phoneIn).1 mid = some m' ∧
        m'.phone = m.phone) := by
  have hm' : st.members.find? (fun x => x.member_id == mid) = some m := hm
  have hmmem : m ∈ st.members := List.mem_of_find?_eq_some hm'
  have hmid : (m.member_id == mid) = true := by
    have h0 := List.find?_some hm'
    simpa using h0
  refine ⟨?_, ?_, ?_⟩
  · intro hn hp
    rw [update_member_profile_run st a nameIn phoneIn mid m ha hm]
    simp only [hn, hp, if_pos rfl]
    rw [map_id_on]
    intro x hx
    by_cases hxid : (x.member_id == mid) = true
    · rw [if_pos hxid]
      have hxm : x = m := by
        refine List.inj_on_of_nodup_map hnd hx hmmem ?_
        have h1 : x.member_id = mid := by simpa [beq_iff_eq] using hxid
        have h2 : m.member_id = mid := by simpa [beq_iff_eq] using hmid
        rw [h1, h2]
      subst hxm
      rfl
    · rw [if_neg hxid]
  · intro hn
    rw [update_member_profile_run st a nameIn phoneIn mid m ha hm]
    unfold findMember
    dsimp only
    refine ⟨_, find?_map_of_pred _ (fun x : MemberRow => x.member_id == mid)
      (fun x : MemberRow => x.member_id == mid) st.members ?_ hm', ?_⟩
    · intro x
      dsimp only
      by_cases hxid : (x.member_id == mid) = true
      · rw [if_pos hxid, hxid]
        exact hmid
      · rw [if_neg hxid]
    · rw [if_pos hmid]
      simp [hn]
  · intro hp
    rw [update_member_profile_run st a nameIn phoneIn mid m ha hm]
    unfold findMember
    dsimp only
    refine ⟨_, find?_map_of_pred _ (fun x : MemberRow => x.member_id == mid)
      (fun x : MemberRow => x.member_id == mid) st.members ?_ hm', ?_⟩
    · intro x
      dsimp only
      by_cases hxid : (x.member_id == mid) = true
      · rw [if_pos hxid, hxid]
        exact hmid
      · rw [if_neg hxid]
    · rw [if_pos hmid]
      simp [hp]

/-- Closed instantiation of `update_member_profile_blank`: a blank name
and a whitespace-only phone leave Alice's row and the whole store
untouched while reporting success. -/
theorem update_member_profile_blank_witness :
    update_member_profile aliceSt "1" "" "   " = (aliceSt, .ok ()) := by
  have h := update_member_profile_blank aliceSt "1" "" "   " 1
    ⟨1, "Alice", "alice@club.com", none, none, none⟩ (by decide) (by decide) (by decide)
  exact h.1 (by decide) (by decide)

/-! ### Claim C7 -/

/-- C7: `register_member` with a non-empty date-of-birth string that
does not match the fixed date pattern still creates the member row,
with the `date_of_birth` field stored as absent, rather than failing
the registration. -/
theorem register_member_invalid_dob (st : DBState) (name email dob gender phone : String)
    (hne : dob ≠ "") (hbad : parseDate dob = none)
    (hemail : st.members.any (fun x => x.email == email) = false) :
    register_member st name email dob gender phone =
      ({ st with members := st.members ++
          [⟨(st.members.length : Int) + 1, name, email, none,
            (if gender = "" then none else some gender),
            (if phone = "" then none else some phone)⟩] },
       .ok ((st.members.length : Int) + 1)) := by
  unfold register_member dbInsertMember
  dsimp only
  rw [if_neg hne, hbad]
  rw [if_neg (by simp [hemail])]

/-- Closed instantiation of `register_member_invalid_dob`: the
out-of-range date string 1990-13-40 is silently dropped and Cara is
registered without a date of birth. -/
theorem register_member_invalid_dob_witness :
    register_member initState "Cara" "cara@club.com" "1990-13-40" "" "" =
      ({ initState with members := initState.members ++
          [⟨(initState.members.length : Int) + 1, "Cara", "cara@club.com", none,
            (if "" = "" then none else some ""), (if "" = "" then none else some "")⟩] },
       .ok ((initState.members.length : Int) + 1)) :=
  register_member_invalid_dob initState "Cara" "cara@club.com" "1990-13-40" "" ""
    (by decide) (by decide) (by decide)

/-! ### Claim C9 -/

/-- C9: on a store with no admins, startup creates the default admin
with username "admin" and literal plaintext password "admin123", so
that `authenticate_admin` succeeds exactly for the password "admin123"
and fails for every other password. -/
theorem default_admin_plaintext_auth (st : DBState) (hempty : st.admins = []) :
    ∃ st', create_default_admin st = (st', .ok ()) ∧
      st'.admins = [⟨(st.admins.length : Int) + 1, "admin", "admin123",
        "System Administrator", "admin@fitnessclub.com"⟩] ∧
      authenticate_admin st' "admin" "admin123" =
        some ⟨(st.admins.length : Int) + 1, "admin", "admin123",
          "System Administrator", "admin@fitnessclub.com"⟩ ∧
      (∀ p, p ≠ "admin123" → authenticate_admin st' "admin" p = none) := by
  refine ⟨{ st with admins := st.admins ++
      [⟨(st.admins.length : Int) + 1, "admin", "admin123",
        "System Administrator", "admin@fitnessclub.com"⟩] }, ?_, ?_, ?_, ?_⟩
  · unfold create_default_admin dbInsertAdmin
    rw [hempty]
    simp
  · rw [hempty]
    simp
  · unfold authenticate_admin
    rw [hempty]
    simp
  · intro p hp
    unfold authenticate_admin
    rw [hempty]
    simp only [List.nil_append, List.find?_cons_of_pos, beq_self_eq_true]
    rw [if_neg]
    simp only [beq_iff_eq]
    exact fun h => hp h.symm

/-- Closed instantiation of `default_admin_plaintext_auth` on the empty
store: "admin123" authenticates, "hunter2" does not. -/
theorem default_admin_plaintext_auth_witness :
    authenticate_admin (create_default_admin initState).1 "admin" "admin123" =
      some ⟨1, "admin", "admin123", "System Administrator", "admin@fitnessclub.com"⟩ ∧
    authenticate_admin (create_default_admin initState).1 "admin" "hunter2" = none := by
  obtain ⟨st', heq, hadmins, hauth, hfail⟩ := default_admin_plaintext_auth initState rfl
  have h1 : (create_default_admin initState).1 = st' := by rw [heq]
  rw [h1, hauth]
  refine ⟨?_, hfail "hunter2" (by decide)⟩
  decide

/-! ### Claim C10 -/

/-- C10: `register_member` and `create_trainer` accept the empty string
for name and email — the rows are created with empty-string fields,
since `input()` always yields a (possibly empty) string and only NULL
is rejected by the schema; no non-emptiness validation exists. -/
theorem empty_name_email_accepted (st : DBState)
    (hm : st.members.any (fun x => x.email == "") = false)
    (ht : st.trainers.any (fun x => x.email == "") = false) :
    register_member st "" "" "" "" "" =
      ({ st with members := st.members ++
          [⟨(st.members.length : Int) + 1, "", "", none, none, none⟩] },
       .ok ((st.members.length : Int) + 1)) ∧
    create_trainer st "" "" "" =
      ({ st with trainers := st.trainers ++
          [⟨(st.trainers.length : Int) + 1, "", "", none⟩] },
       .ok ((st.trainers.length : Int) + 1)) := by
  constructor
  · unfold register_member dbInsertMember
    dsimp only
    rw [if_pos rfl]
    rw [if_neg (by simp [hm])]
    simp
  · unfold create_trainer dbInsertTrainer
    dsimp only
    rw [if_neg (by simp [ht])]
    simp

/-- Closed instantiation of `empty_name_email_accepted` on the empty
store. -/
theorem empty_name_email_accepted_witness :
    register_member initState "" "" "" "" "" =
      ({ initState with members := initState.members ++
          [⟨(initState.members.length : Int) + 1, "", "", none, none, none⟩] },
       .ok ((initState.members.length : Int) + 1)) ∧
    create_trainer initState "" "" "" =
      ({ initState with trainers := initState.trainers ++
          [⟨(initState.trainers.length : Int) + 1, "", "", none⟩] },
       .ok ((initState.trainers.length : Int) + 1)) :=
  empty_name_email_accepted initState (by decide) (by decide)

/-! ### Claim C8 -/

lemma latest_fold_spec (l : List HealthMetricRow) (acc : Option HealthMetricRow)
    (h : HealthMetricRow)
    (hfold : l.foldl
      (fun acc h => match acc with
        | none => some h
        | some b => if b.timestamp < h.timestamp then some h else some b) acc = some h) :
    (h ∈ l ∨ acc = some h) ∧ (∀ h' ∈ l, h'.timestamp ≤ h.timestamp) ∧
    (∀ b, acc = some b → b.timestamp ≤ h.timestamp) := by
  induction l generalizing acc with
  | nil =>
    rw [List.foldl_nil] at hfold
    refine ⟨Or.inr hfold, by simp, ?_⟩
    intro b hb
    rw [hb] at hfold
    injection hfold with e
    rw [e]
  | cons x xs ih =>
    rw [List.foldl_cons] at hfold
    cases acc with
    | none =>
      obtain ⟨hmem, hmax, hacc⟩ := ih (some x) hfold
      refine ⟨?_, ?_, ?_⟩
      · rcases hmem with hmem | hx
        · exact Or.inl (List.mem_cons_of_mem x hmem)
        · injection hx with e
          exact Or.inl (e ▸ List.mem_cons_self x xs)
      · intro h' hh'
        rcases List.mem_cons.mp hh' with rfl | hh'
        · exact hacc _ rfl
        · exact hmax h' hh'
      · intro b hb
        simp at hb
    | some b0 =>
      by_cases hlt : b0.timestamp < x.timestamp
      · rw [show (match some b0 with
            | none => some x
            | some b => if b.timestamp < x.timestamp then some x else some b) =
            some x from by dsimp only; rw [if_pos hlt]] at hfold
        obtain ⟨hmem, hmax, hacc⟩ := ih (some x) hfold
        refine ⟨?_, ?_, ?_⟩
        · rcases hmem with hmem | hx
          · exact Or.inl (List.mem_cons_of_mem x hmem)
          · injection hx with e
            exact Or.inl (e ▸ List.mem_cons_self x xs)
        · intro h' hh'
          rcases List.mem_cons.mp hh' with rfl | hh'
          · exact hacc _ rfl
          · exact hmax h' hh'
        · intro b hb
          injection hb with e
          subst e
          exact le_trans (le_of_lt hlt) (hacc x rfl)
      · rw [show (match some b0 with
            | none => some x
            | some b => if b.timestamp < x.timestamp then some x else some b) =
            some b0 from by dsimp only; rw [if_neg hlt]] at hfold
        obtain ⟨hmem, hmax, hacc⟩ := ih (some b0) hfold
        refine ⟨?_, ?_, ?_⟩
        · rcases hmem with hmem | hx
          · exact Or.inl (List.mem_cons_of_mem x hmem)
          · exact Or.inr hx
        · intro h' hh'
          rcases List.mem_cons.mp hh' with rfl | hh'
          · exact le_trans (le_of_not_lt hlt) (hacc b0 rfl)
          · exact hmax h' hh'
        · exact hacc

lemma latest_fold_some (l : List HealthMetricRow) (b : HealthMetricRow) :
    ∃ h, l.foldl
      (fun acc h => match acc with
        | none => some h
        | some b => if b.timestamp < h.timestamp then some h else some b) (some b) = some h := by
  induction l generalizing b with
  | nil => exact ⟨b, rfl⟩
  | cons x xs ih =>
    rw [List.foldl_cons]
    by_cases hlt : b.timestamp < x.timestamp
    · rw [show (match some b with
          | none => some x
          | some b => if b.timestamp < x.timestamp then some x else some b) =
          some x from by dsimp only; rw [if_pos hlt]]
      exact ih x
    · rw [show (match some b with
          | none => some x
          | some b => if b.timestamp < x.timestamp then some x else some b) =
          some b from by dsimp only; rw [if_neg hlt]]
      exact ih b

lemma latestMetricOf_spec (l : List HealthMetricRow) (h : HealthMetricRow)
    (hl : latestMetricOf l = some h) :
    h ∈ l ∧ ∀ h' ∈ l, h'.timestamp ≤ h.timestamp := by
  obtain ⟨hmem, hmax, hacc⟩ := latest_fold_spec l none h hl
  rcases hmem with hmem | hbad
  · exact ⟨hmem, hmax⟩
  · simp at hbad

lemma latestMetricOf_isSome (l : List HealthMetricRow) (hne : l ≠ []) :
    ∃ h, latestMetricOf l = some h := by
  cases l with
  | nil => exact absurd rfl hne
  | cons x xs =>
    unfold latestMetricOf
    rw [List.foldl_cons]
    exact latest_fold_some xs x

lemma summary_filter_unique (l : List MemberRow) (F : MemberRow → SummaryRow)
    (hid : ∀ x, (F x).member_id = x.member_id)
    {m : MemberRow} (hm : m ∈ l) (hnd : (l.map (fun x => x.member_id)).Nodup) :
    (l.map F).filter (fun r => r.member_id == m.member_id) = [F m] := by
  induction l with
  | nil => cases hm
  | cons x xs ih =>
    rw [List.map_cons] at hnd
    rw [List.nodup_cons] at hnd
    rw [List.map_cons, List.filter_cons]
    rcases List.mem_cons.mp hm with rfl | hmem
    · rw [if_pos (by simp [hid])]
      have htail : (xs.map F).filter (fun r => r.member_id == m.member_id) = [] := by
        rw [List.filter_eq_nil_iff]
        intro r hr
        obtain ⟨y, hy, rfl⟩ := List.mem_map.mp hr
        simp only [hid, beq_iff_eq]
        intro hcontra
        exact hnd.1 (hcontra ▸ List.mem_map_of_mem (fun x => x.member_id) hy)
      rw [htail]
    · rw [if_neg ?hneq]
      case hneq =>
        simp only [hid, beq_iff_eq]
        intro hcontra
        exact hnd.1 (hcontra ▸ List.mem_map_of_mem (fun x => x.member_id) hmem)
      exact ih hmem hnd.2

/-- C8: for every member (with the schema's unique ids), the view
`MemberHealthSummary` contains exactly one row for that member; the row
carries the member's name and email, null metric fields when the member
has no health metrics, and otherwise one of the member's metrics whose
timestamp is maximal among them. -/
theorem memberHealthSummary_per_member (st : DBState) (m : MemberRow)
    (hm : m ∈ st.members)
    (hnd : (st.members.map (fun x => x.member_id)).Nodup) :
    ∃ row, (memberHealthSummary st).filter (fun r => r.member_id == m.member_id) = [row] ∧
      row.member_name = m.name ∧ row.email = m.email ∧
      (st.metrics.filter (fun x => x.member_id == m.member_id) = [] →
        row.metric_type = none ∧ row.metric_value = none ∧ row.last_metric_time = none) ∧
      (st.metrics.filter (fun x => x.member_id == m.member_id) ≠ [] →
        ∃ h ∈ st.metrics.filter (fun x => x.member_id == m.member_id),
          row.metric_type = some h.metric_type ∧ row.metric_value = some h.metric_value ∧
          row.last_metric_time = some h.timestamp ∧
          ∀ h' ∈ st.metrics.filter (fun x => x.member_id == m.member_id),
            h'.timestamp ≤ h.timestamp) := by
  unfold memberHealthSummary
  refine ⟨_, summary_filter_unique st.members _ ?_ hm hnd, ?_, ?_, ?_, ?_⟩
  · intro x
    cases h0 : latestMetricOf (st.metrics.filter (fun h => h.member_id == x.member_id)) <;>
      simp [h0]
  · cases h0 : latestMetricOf (st.metrics.filter (fun h => h.member_id == m.member_id)) <;>
      simp [h0]
  · cases h0 : latestMetricOf (st.metrics.filter (fun h => h.member_id == m.member_id)) <;>
      simp [h0]
  · intro hnil
    rw [show latestMetricOf (st.metrics.filter (fun h => h.member_id == m.member_id)) = none
      from by rw [hnil]; rfl]
    exact ⟨rfl, rfl, rfl⟩
  · intro hne
    obtain ⟨h, hlatest⟩ :=
      latestMetricOf_isSome (st.metrics.filter (fun x => x.member_id == m.member_id)) hne
    obtain ⟨hmem, hmax⟩ := latestMetricOf_spec _ h hlatest
    refine ⟨h, hmem, ?_⟩
    rw [hlatest]
    exact ⟨rfl, rfl, rfl, hmax⟩

/-- Closed instantiation of `memberHealthSummary_per_member`: Alice's
summary row carries her Weight metric with the later timestamp 9. -/
theorem memberHealthSummary_per_member_witness :
    ∃ row, (memberHealthSummary metricSt).filter (fun r => r.member_id == (1 : Int)) = [row] ∧
      row.member_name = "Alice" ∧ row.email = "alice@club.com" ∧
      (metricSt.metrics.filter (fun x => x.member_id == (1 : Int)) = [] →
        row.metric_type = none ∧ row.metric_value = none ∧ row.last_metric_time = none) ∧
      (metricSt.metrics.filter (fun x => x.member_id == (1 : Int)) ≠ [] →
        ∃ h ∈ metricSt.metrics.filter (fun x => x.member_id == (1 : Int)),
          row.metric_type = some h.metric_type ∧ row.metric_value = some h.metric_value ∧
          row.last_metric_time = some h.timestamp ∧
          ∀ h' ∈ metricSt.metrics.filter (fun x => x.member_id == (1 : Int)),
            h'.timestamp ≤ h.timestamp) :=
  memberHealthSummary_per_member metricSt ⟨1, "Alice", "alice@club.com", none, none, none⟩
    (by decide) (by decide)

end Fitness
